import Mathlib

/-!
Verification of the command-tree dispatcher in `command.go` (package `cli`).

Go commands form a pointer graph: each `Command` holds a `parent` pointer and
an ordered `children` slice, and `Register` mutates both ends.  We embed this
as a flat store of nodes addressed by natural-number indices, with `parent :
Option Nat` and `children : List Nat`; mutation becomes functional update of
the store.  External collaborators that live outside `command.go` (the
argument parser `parseArgv`, the usage-string collaborator `usage`, the
edit-distance `match` function and the rank comparator, `wrapErr`, the
constant `dashOne`, and terminal styling) are modelled from the spec, each
marked `Modelled from the spec:` at its definition.
-/

namespace CoffeeCli

/-- Modelled from the spec: the abstract argument-parser collaborator bound to
a command's argument factory (`parseArgv`, the `flagSet` and the usage-string
collaborator are outside `src/`).  `parseErr args` is the parser's error on a
given residual token list (`none` = success); `dontValidate args` is the
parsed flag-set's validation-skip flag; `validateResult` is `none` when the
argument object does not implement `Validator`, and `some r` when it does and
`Validate()` returns `r` (`none` = passes); `usageStr clr` is the flag-level
usage text produced by the usage-string collaborator under color mode `clr`. -/
structure ArgvSpec where
  parseErr : List String → Option String
  dontValidate : List String → Bool
  validateResult : Option (Option String)
  usageStr : Bool → String

/-- One `Command` node of the tree (`Command` struct in command.go).
`Fn = some r` models a bound handler whose invocation returns `r`
(`none` = handler returns nil); `Fn = none` models a nil `Fn` field.
`parent` and `children` are store indices; `usage` is the memoized
usage-text cache (zero value `""` = not yet populated). -/
structure Node where
  Name : String := ""
  Desc : String := ""
  Text : String := ""
  Fn : Option (Option String) := none
  Argv : Option ArgvSpec := none
  CanSubRoute : Bool := false
  HTTPMethods : List String := []
  parent : Option Nat := none
  children : List Nat := []
  usage : String := ""

instance : Inhabited Node := ⟨{}⟩

/-- The command tree: all nodes, addressed by index (a Go pointer). -/
structure Store where
  nodes : List Node

/-- Pointer dereference: out-of-range indices give the zero `Node`
(such indices never arise from a well-formed tree). -/
def getNode (s : Store) (i : Nat) : Node :=
  s.nodes.getD i default

/-- Pointer write: replace node `i`. -/
def setNode (s : Store) (i : Nat) (n : Node) : Store :=
  ⟨s.nodes.set i n⟩

/-- Function `findChild` in command.go: first child of `cmd` whose `Name` equals
`name`, or `none` (nil). -/
def findChild (s : Store) (cmd : Nat) (name : String) : Option Nat :=
  (getNode s cmd).children.find? (fun c => (getNode s c).Name == name)

/-- The loop of `SubRoute`: `cur` is the current node, `i` the count of
tokens consumed so far. -/
def subRouteAux (s : Store) : Nat → Nat → List String → Nat × Nat
  | cur, i, [] => (cur, i)
  | cur, i, name :: rest =>
    match findChild s cur name with
    | none => (cur, i)
    | some child => subRouteAux s child (i + 1) rest

/-- Method `SubRoute` in command.go: walk `router` from `cmd`, descending to the
child named by each token, stopping at the first token with no matching
child; returns the node reached and the number of tokens consumed. -/
def SubRoute (s : Store) (cmd : Nat) (router : List String) : Nat × Nat :=
  subRouteAux s cmd 0 router

/-- Method `Route` in command.go: the node from `SubRoute` if it consumed every
token, else `none` (nil). -/
def Route (s : Store) (cmd : Nat) (router : List String) : Option Nat :=
  let (child, e) := SubRoute s cmd router
  if e ≠ router.length then none else some child

/-- Example tree for the routing claims: root 0 → `a` (1) → `b` (2). -/
def exC1 : Store :=
  ⟨[{Name := "root", children := [1]},
    {Name := "a", parent := some 0, children := [2]},
    {Name := "b", parent := some 1}]⟩

/-- The loop body of `Path` in command.go, walking `parent` links upward and
prepending each non-empty name.  The Go loop terminates because the parent
graph of a registered tree is acyclic; we supply fuel (`Path` passes the
store size, enough for any acyclic parent chain). -/
def pathGo (s : Store) : Nat → Nat → String → String
  | 0, _, path => path
  | fuel + 1, cur, path =>
    match (getNode s cur).parent with
    | none => path
    | some p =>
      let n := (getNode s cur).Name
      let path' := if n = "" then path
                   else if path = "" then n else n ++ " " ++ path
      pathGo s fuel p path'

/-- Method `Path` in command.go: the node's ancestor-chain names joined by single
spaces, the (parentless) root's own name excluded. -/
def Path (s : Store) (cmd : Nat) : String :=
  pathGo s s.nodes.length cmd ""

/-- The loop of `Root` in command.go, with fuel as for `pathGo`. -/
def rootGo (s : Store) : Nat → Nat → Nat
  | 0, cur => cur
  | fuel + 1, cur =>
    match (getNode s cur).parent with
    | none => cur
    | some p => rootGo s fuel p

/-- Method `Root` in command.go: follow `parent` links to the ancestor with no
parent. -/
def Root (s : Store) (cmd : Nat) : Nat :=
  rootGo s s.nodes.length cmd

/-- Method `nochild` in command.go. -/
def nochild (s : Store) (cmd : Nat) : Bool :=
  (getNode s cmd).children.isEmpty

/-- One row-update step of the classic edit-distance dynamic programme:
given the previous row starting at column `j-1` (`pdiag :: ptail`) and the
value `left` just computed for column `j-1` of the current row, produce the
current row's entries for the remaining characters `bs` of `t`. -/
def levGo (a : Char) : List Char → List Nat → Nat → List Nat
  | [], _, _ => []
  | b :: bs, prev, left =>
    match prev with
    | [] => []
    | pdiag :: ptail =>
      let pj := ptail.headD 0
      let cur := min (left + 1) (min (pj + 1) (pdiag + (if a = b then 0 else 1)))
      cur :: levGo a bs ptail cur


/-- Modelled from the spec: the repository's edit-distance function (outside
`src/`) is "a classic insertion/deletion/substitution edit-distance metric
over characters"; this is the standard Levenshtein dynamic programme, one row
per character of `s`. -/
def editDistance (s t : String) : Nat :=
  let ts := t.data
  let row := s.data.foldl
    (fun prev a => (prev.headD 0 + 1) :: levGo a ts prev (prev.headD 0 + 1))
    (List.range (ts.length + 1))
  row.getLastD 0

/-- Modelled from the spec: the repository's `match` function (outside
`src/`) accepts a candidate only when its edit distance to the target "is
below a fixed acceptability threshold relative to the lengths of the two
strings"; we take: accepted iff twice the distance is less than the sum of
the two lengths.  Returns the distance on acceptance. -/
def matchDist (s t : String) : Option Nat :=
  let d := editDistance s t
  if 2 * d < s.length + t.length then some d else none

/-- The worklist loop of `Suggestions` in command.go: pop the head command;
if it has children, append each child's full `Path` to `targets` (in child
order) and push the children in front of the remaining worklist
(`append(cmds[0].children, cmds[1:]...)`).  Fuel as for `pathGo`: in a tree
each node enters the worklist at most once. -/
def suggCollect (s : Store) : Nat → List Nat → List String → List String
  | 0, _, targets => targets
  | _ + 1, [], targets => targets
  | fuel + 1, c :: rest, targets =>
    if nochild s c then suggCollect s fuel rest targets
    else suggCollect s fuel ((getNode s c).children ++ rest)
      (targets ++ (getNode s c).children.map (fun ch => Path s ch))

/-- Method `Suggestions` in command.go: from the root, collect the full path of
every node of the tree (root excluded), keep those accepted by `match`
against `path`, and sort ascending by distance.  The comparator and
`sort.Sort` call live outside `src/`; Modelled from the spec: "Sort accepted
candidates ascending by distance, ties broken by original discovery order",
i.e. a stable sort on the distance key (Go's insertion sort for short
slices is exactly this). -/
def Suggestions (s : Store) (cmd : Nat) (path : String) : List String :=
  let root := Root s cmd
  let targets := suggCollect s (s.nodes.length + 1) [root] []
  let dists := targets.filterMap
    (fun t => (matchDist path t).map (fun d => (t, d)))
  (dists.insertionSort (fun x y => x.2 ≤ y.2)).map (fun x => x.1)

/-- The claim's traversal, written from the spec's words for comparison with
`suggCollect`: breadth-first discovery (pop the head, push its children at
the back of the queue), root's direct children first. -/
def suggCollectBF (s : Store) : Nat → List Nat → List String → List String
  | 0, _, targets => targets
  | _ + 1, [], targets => targets
  | fuel + 1, c :: rest, targets =>
    if nochild s c then suggCollectBF s fuel rest targets
    else suggCollectBF s fuel (rest ++ (getNode s c).children)
      (targets ++ (getNode s c).children.map (fun ch => Path s ch))

/-- The suggestion ranker as the claim states it (breadth-first discovery
order for ties); identical to `Suggestions` except for the traversal. -/
def SuggestionsBF (s : Store) (cmd : Nat) (path : String) : List String :=
  let root := Root s cmd
  let targets := suggCollectBF s (s.nodes.length + 1) [root] []
  let dists := targets.filterMap
    (fun t => (matchDist path t).map (fun d => (t, d)))
  (dists.insertionSort (fun x y => x.2 ≤ y.2)).map (fun x => x.1)

/-- Modelled from the spec: the constant `dashOne` (defined outside `src/`);
a token "looks like a flag" when it begins with a single dash. -/
def dashOne : String := "-"

/-- Modelled from the spec: terminal styling (gommon/color, outside this
repository).  `Yellow` wraps in ANSI yellow when color is enabled, else
returns the string unchanged. -/
def yellowStr (clr : Bool) (x : String) : String :=
  if clr then "\x1b[33m" ++ x ++ "\x1b[0m" else x

/-- Modelled from the spec: `Bold` styling, as `yellowStr`. -/
def boldStr (clr : Bool) (x : String) : String :=
  if clr then "\x1b[1m" ++ x ++ "\x1b[0m" else x

/-- The execution context (`Context` in command.go) restricted to the data
the dispatch claims observe: `path`/`router`/`nativeArgs` as passed to
`newContext`, and the matched command (`ctx.command`). -/
structure Ctx where
  path : String
  router : List String
  nativeArgs : List String
  command : Nat
deriving DecidableEq

/-- The error taxonomy of dispatch (`throwCommandNotFound`,
`throwMethodNotAllowed`, the parser's error, the validator's error).  Each
carries the message payload the code passes at the throw site. -/
inductive CliError where
  | commandNotFound (path : String)
  | methodNotAllowed (method : String)
  | parseFail (msg : String)
  | validationFail (msg : String)
deriving DecidableEq

/-- Outcome of `RunWithWriter`.  `failed e suggestion` models
`wrapErr(err, suggestion, clr)` — Modelled from the spec: `wrapErr` (outside
`src/`) attaches the rendered suggestion text to the returned error; it is
`""` for every branch but the routing-failure one.  `done ctx r` models the
handler being invoked exactly once with `ctx` and returning `r`
(`ctx.command.Fn(ctx)` is the only call site and its value is returned to
the caller unmodified).  `nilHandlerFault` models the nil-pointer fault Go
would hit at `ctx.command.Fn(ctx)` when the matched node has no handler. -/
inductive RunResult where
  | failed (e : CliError) (suggestion : String)
  | done (ctx : Ctx) (handlerReturn : Option String)
  | nilHandlerFault (ctx : Ctx)
deriving DecidableEq

/-- The suggestion rendering block of `RunWithWriter` (lines 257–268): one
suggestion renders "Did you mean X?" with X bolded, several render a
bulleted list, none renders nothing. -/
def renderSuggestion (clr : Bool) (suggs : List String) : String :=
  if suggs.isEmpty then ""
  else if suggs.length = 1 then
    "\nDid you mean " ++ boldStr clr (suggs.headD "") ++ "?"
  else
    "\n\nDid you mean one of these?\n" ++
      String.join (suggs.map (fun x => "    " ++ x ++ "\n"))

/-- The method gate of `RunWithWriter` (lines 272–285): allowed when the
caller supplied no method or the node's `HTTPMethods` is nil/empty;
otherwise the first supplied method must be a member. -/
def methodAllowed (s : Store) (child : Nat) (httpMethods : List String) : Bool :=
  if httpMethods.isEmpty || (getNode s child).HTTPMethods.isEmpty then true
  else (getNode s child).HTTPMethods.contains (httpMethods.headD "")

/-- The tail of the dispatch: `ctx.command.Fn(ctx)` (line 326), invoked once
after the error-free closure; a nil `Fn` faults. -/
def runExec (s : Store) (ctx : Ctx) : RunResult :=
  match (getNode s ctx.command).Fn with
  | none => .nilHandlerFault ctx
  | some r => .done ctx r

/-- Argv creation, `newContext` (parse of `args[end:]`), and validation
(lines 290–314): the context carries `router[:end]` and `args[end:]`; when an
argument factory exists the parser runs on `args[end:]` and a parse error is
returned; then, unless the parsed flag-set set `dontValidate`, an argument
object implementing `Validator` is validated and its error returned. -/
def runAfterGate (s : Store) (child : Nat) (path : String)
    (router args : List String) (e : Nat) : RunResult :=
  let ctx : Ctx := ⟨path, router.take e, args.drop e, child⟩
  match (getNode s child).Argv with
  | none => runExec s ctx
  | some av =>
    match av.parseErr (args.drop e) with
    | some m => .failed (.parseFail m) ""
    | none =>
      if av.dontValidate (args.drop e) then runExec s ctx
      else
        match av.validateResult with
        | some (some m) => .failed (.validationFail m) ""
        | _ => runExec s ctx

/-- Character-list prefix test, the meaning of Go's `strings.HasPrefix`
(written structurally so concrete dispatches evaluate by `decide`). -/
def chListPfx : List Char → List Char → Bool
  | [], _ => true
  | _ :: _, [] => false
  | c :: cs, d :: ds => c == d && chListPfx cs ds

/-- Go `strings.HasPrefix(a, p)`: does `a` begin with `p`? -/
def hasPfx (p a : String) : Bool :=
  chListPfx p.data a.data

/-- The argument split of `RunWithWriter` (lines 241–247): the router
tokens are those before the first token that begins with a dash. -/
def routerOf (args : List String) : List String :=
  args.takeWhile (fun a => !hasPfx dashOne a)

/-- Method `RunWithWriter` in command.go: split `args` at the first token beginning
with a dash; fail at once when the router prefix is empty and the receiver
has no handler; route with `SubRoute`; fail with suggestions when the
matched node did not consume every token and cannot sub-route; gate on the
supplied method; then build the context, parse, validate, and invoke the
handler.  `clr` is the color capability of the writer. -/
def RunWithWriter (s : Store) (cmd : Nat) (args : List String)
    (httpMethods : List String) (clr : Bool) : RunResult :=
  let router := routerOf args
  if router.isEmpty && (getNode s cmd).Fn.isNone then
    .failed (.commandNotFound (yellowStr clr (getNode s cmd).Name)) ""
  else
    let path := String.intercalate " " router
    let r := SubRoute s cmd router
    if !(getNode s r.1).CanSubRoute && r.2 != router.length then
      .failed (.commandNotFound (yellowStr clr path))
        (renderSuggestion clr (Suggestions s cmd path))
    else if !methodAllowed s r.1 httpMethods then
      .failed (.methodNotAllowed (yellowStr clr (httpMethods.headD ""))) ""
    else
      runAfterGate s r.1 path router args r.2

/-- Outcome of `Register`: `fatal` models `Panicf` (the process aborts with
a configuration error), `ok` returns the updated pointer graph and the
child (Go returns the child pointer for chaining). -/
inductive RegResult where
  | fatal (msg : String)
  | ok (s : Store) (child : Nat)

/-- Method `Register` in command.go: fails fatally on a nil child, an empty-named
child, a child that already has a parent, or a duplicate-named sibling; else
appends the child to `cmd.children` and sets `child.parent = cmd`. -/
def Register (s : Store) (cmd : Nat) (child : Option Nat) : RegResult :=
  match child with
  | none =>
    .fatal ("command `" ++ (getNode s cmd).Name ++ "` try register a nil command")
  | some ch =>
    if (getNode s ch).Name = "" then
      .fatal ("command `" ++ (getNode s cmd).Name ++ "` try register a empty command")
    else if (getNode s ch).parent.isSome then
      .fatal ("command `" ++ (getNode s ch).Name ++ "` has been child of `" ++
        (getNode s ((getNode s ch).parent.getD 0)).Name ++ "`")
    else if (findChild s cmd (getNode s ch).Name).isSome then
      .fatal ("repeat register child `" ++ (getNode s ch).Name ++
        "` for command `" ++ (getNode s cmd).Name ++ "`")
    else
      let s1 := setNode s cmd
        {getNode s cmd with children := (getNode s cmd).children ++ [ch]}
      let s2 := setNode s1 ch {getNode s1 ch with parent := some cmd}
      .ok s2 ch

/-- Right-padding with spaces, as Go's `%-*s` formatting verb. -/
def padRight (x : String) (n : Nat) : String :=
  x ++ String.mk (List.replicate (n - x.length) ' ')

/-- Method `ListChildren` in command.go: one line per child in registration order,
`prefix name-padded-to-longest indent desc`, empty for a childless node. -/
def ListChildren (s : Store) (cmd : Nat) (pre ind : String) : String :=
  if nochild s cmd then ""
  else
    let len := (getNode s cmd).children.foldl
      (fun m c => max m (getNode s c).Name.length) 0
    String.join ((getNode s cmd).children.map (fun c =>
      pre ++ padRight (getNode s c).Name len ++ ind ++ (getNode s c).Desc ++ "\n"))

/-- Result of a `Usage` call: the returned text, whether this call performed
construction work (the cache missed and the text was rebuilt), and the
store after the call (the cache write). -/
structure UsageResult where
  text : String
  built : Bool
  store : Store

/-- The construction block of `Usage` (lines 344–360): description
paragraph, detailed-text paragraph, a bolded "Usage:" section from the
usage-string collaborator when an argument factory exists, and a bolded
"Commands:" section listing the children. -/
def UsageBuild (s : Store) (cmd : Nat) (clr : Bool) : String :=
  let n := getNode s cmd
  (if n.Desc ≠ "" then n.Desc ++ "\n\n" else "") ++
  (if n.Text ≠ "" then n.Text ++ "\n\n" else "") ++
  (match n.Argv with
   | some av => boldStr clr "Usage" ++ ":\n" ++ av.usageStr clr
   | none => "") ++
  (if n.children.isEmpty then ""
   else
     (if n.Argv.isSome then "\n" else "") ++
     boldStr clr "Commands" ++ ":\n" ++ ListChildren s cmd "  " "   ")

/-- Method `Usage` in command.go: color comes from the first supplied context
(`ctxClr = some c`), else styling is disabled; a non-empty cached string is
returned as-is, otherwise the text is built, cached, and returned. -/
def Usage (s : Store) (cmd : Nat) (ctxClr : Option Bool) : UsageResult :=
  let clr := ctxClr.getD false
  let cached := (getNode s cmd).usage
  if cached ≠ "" then ⟨cached, false, s⟩
  else
    let text := UsageBuild s cmd clr
    ⟨text, true, setNode s cmd {getNode s cmd with usage := text}⟩

/-! Concrete trees used by the claim theorems and witnesses. -/

/-- An argument spec whose parse always succeeds and which implements no
validator. -/
def okArgv : ArgvSpec :=
  ⟨fun _ => none, fun _ => false, none, fun _ => ""⟩

/-- An argument spec whose parse always fails with a message echoing the
token list it was handed (making the parser's input observable). -/
def echoArgv : ArgvSpec :=
  ⟨fun ts => some (String.intercalate "," ts), fun _ => false, none, fun _ => ""⟩

/-- Tree `hello → world` with a handler and argument factory on `world`. -/
def hw : Store :=
  ⟨[{Name := "root", children := [1]},
    {Name := "hello", parent := some 0, children := [2]},
    {Name := "world", parent := some 1, Fn := some none, Argv := some okArgv}]⟩

/-- Tree with a sub-routable child `a` carrying the echoing parser. -/
def c3s : Store :=
  ⟨[{Name := "root", children := [1]},
    {Name := "a", parent := some 0, Fn := some none, CanSubRoute := true,
     Argv := some echoArgv}]⟩

/-- Tree with a sub-routable child `a` and no argument factory. -/
def c4s : Store :=
  ⟨[{Name := "root", children := [1]},
    {Name := "a", parent := some 0, Fn := some none, CanSubRoute := true}]⟩

/-- A childless, handlerless root. -/
def lonely : Store := ⟨[{Name := "root"}]⟩

/-- Tree with a method-gated child whose handler returns the error "boom". -/
def mg : Store :=
  ⟨[{Name := "root", children := [1]},
    {Name := "a", parent := some 0, Fn := some (some "boom"),
     HTTPMethods := ["GET", "POST"]}]⟩

/-- Tree whose non-root paths are `a`, `a b`, `a b c`, `d`, `d e`: a depth-3
chain in the first branch and a depth-2 chain in the second, where
depth-first and breadth-first discovery order the deep paths differently. -/
def cs5 : Store :=
  ⟨[{Name := "r", children := [1, 4]},
    {Name := "a", parent := some 0, children := [2]},
    {Name := "b", parent := some 1, children := [3]},
    {Name := "c", parent := some 2},
    {Name := "d", parent := some 0, children := [5]},
    {Name := "e", parent := some 4}]⟩

/-- Tree with known paths `status` (distance 2 from `stauts`) and `stxxxx`
(distance 4 from `stauts`). -/
def st5 : Store :=
  ⟨[{Name := "r", Fn := some none, children := [1, 2]},
    {Name := "status", parent := some 0, Fn := some none},
    {Name := "stxxxx", parent := some 0, Fn := some none}]⟩

/-- Node with a description and two children, for the usage claims. -/
def un : Store :=
  ⟨[{Name := "top", Desc := "des", children := [1, 2]},
    {Name := "alpha", Desc := "da", parent := some 0},
    {Name := "be", Desc := "db", parent := some 0}]⟩

/-- Node whose usage text is empty: no description, no detailed text, no
argument factory, no children. -/
def emptyN : Store := ⟨[{Name := "e"}]⟩

/-- An unregistered parent/child pair for the registration claims. -/
def regS : Store := ⟨[{Name := "p"}, {Name := "c"}]⟩

/-- A store is well formed when every child index is in range. -/
def WFStore (s : Store) : Prop :=
  ∀ n ∈ s.nodes, ∀ c ∈ n.children, c < s.nodes.length

instance (s : Store) : Decidable (WFStore s) :=
  inferInstanceAs (Decidable (∀ n ∈ s.nodes, ∀ c ∈ n.children, c < s.nodes.length))

instance : IsTotal (String × Nat) (fun x y => x.2 ≤ y.2) :=
  ⟨fun a b => Nat.le_total a.2 b.2⟩

instance : IsTrans (String × Nat) (fun x y => x.2 ≤ y.2) :=
  ⟨fun _ _ _ h1 h2 => Nat.le_trans h1 h2⟩

/-- The store of a registration outcome, `none` on a fatal error. -/
def regResStore : RegResult → Option Store
  | .fatal _ => none
  | .ok t _ => some t

/-- The returned child of a registration outcome. -/
def regResChild : RegResult → Option Nat
  | .fatal _ => none
  | .ok _ c => some c

/-- Whether registration aborted with a configuration error. -/
def regResFatal : RegResult → Bool
  | .fatal _ => true
  | .ok _ _ => false

theorem subRouteAux_cons_none (s : Store) (cur i : Nat) (name : String)
    (rest : List String) (h : findChild s cur name = none) :
    subRouteAux s cur i (name :: rest) = (cur, i) := by
  simp [subRouteAux, h]

theorem subRouteAux_cons_some (s : Store) (cur i child : Nat) (name : String)
    (rest : List String) (h : findChild s cur name = some child) :
    subRouteAux s cur i (name :: rest) = subRouteAux s child (i + 1) rest := by
  simp [subRouteAux, h]

theorem subRouteAux_shift (s : Store) (toks : List String) :
    ∀ cur i, subRouteAux s cur i toks =
      ((subRouteAux s cur 0 toks).1, (subRouteAux s cur 0 toks).2 + i) := by
  induction toks with
  | nil => intro cur i; simp [subRouteAux]
  | cons name rest ih =>
    intro cur i
    cases h : findChild s cur name with
    | none =>
      rw [subRouteAux_cons_none s cur i name rest h,
        subRouteAux_cons_none s cur 0 name rest h]
      simp
    | some child =>
      rw [subRouteAux_cons_some s cur i child name rest h,
        subRouteAux_cons_some s cur 0 child name rest h,
        ih child (i + 1), ih child (0 + 1)]
      simp
      omega

/-- Claim C1: `SubRoute` descends, for each token in order, to the child
whose name exactly equals the token, stops at the first token with no
matching child, and returns the node reached together with the number of
tokens consumed so far; `Route` returns that node exactly when `SubRoute`
consumed every token and reports no match otherwise; and on the tree
root → a → b, `SubRoute ["a","b","c"]` is (the b node, 2),
`Route ["a","b","c"]` is no match, and `Route ["a","b"]` is the b node. -/
theorem C1_subroute_route :
    (∀ s cmd, SubRoute s cmd [] = (cmd, 0))
    ∧ (∀ s cmd name rest, findChild s cmd name = none →
        SubRoute s cmd (name :: rest) = (cmd, 0))
    ∧ (∀ s cmd name rest child, findChild s cmd name = some child →
        SubRoute s cmd (name :: rest) =
          ((SubRoute s child rest).1, (SubRoute s child rest).2 + 1))
    ∧ (∀ s cmd router n, Route s cmd router = some n ↔
        SubRoute s cmd router = (n, router.length))
    ∧ SubRoute exC1 0 ["a", "b", "c"] = (2, 2)
    ∧ Route exC1 0 ["a", "b", "c"] = none
    ∧ Route exC1 0 ["a", "b"] = some 2 := by
  refine ⟨?_, ?_, ?_, ?_, by decide, by decide, by decide⟩
  · intro s cmd; rfl
  · intro s cmd name rest h
    exact subRouteAux_cons_none s cmd 0 name rest h
  · intro s cmd name rest child h
    unfold SubRoute
    rw [subRouteAux_cons_some s cmd 0 child name rest h]
    exact subRouteAux_shift s rest child 1
  · intro s cmd router n
    unfold Route
    rcases h : SubRoute s cmd router with ⟨c, e⟩
    by_cases he : e = router.length
    · subst he
      simp [eq_comm]
    · simp only [ne_eq, he, not_false_eq_true, if_true, Prod.mk.injEq]
      constructor
      · rintro ⟨⟩
      · rintro ⟨_, h2⟩; exact h2.elim

theorem C1_witness :
    findChild exC1 0 "a" = some 1 ∧
    SubRoute exC1 0 ["a", "b"] =
      ((SubRoute exC1 1 ["b"]).1, (SubRoute exC1 1 ["b"]).2 + 1) :=
  ⟨by decide, C1_subroute_route.2.2.1 exC1 0 "a" ["b"] 1 (by decide)⟩

theorem subRouteAux_snd_le (s : Store) (toks : List String) :
    ∀ cur i, (subRouteAux s cur i toks).2 ≤ i + toks.length := by
  induction toks with
  | nil => intro cur i; simp [subRouteAux]
  | cons name rest ih =>
    intro cur i
    cases h : findChild s cur name with
    | none =>
      rw [subRouteAux_cons_none s cur i name rest h]
      simp
    | some child =>
      rw [subRouteAux_cons_some s cur i child name rest h]
      calc (subRouteAux s child (i + 1) rest).2 ≤ (i + 1) + rest.length := ih child (i + 1)
        _ ≤ i + (name :: rest).length := by simp; omega

theorem subRouteAux_fst_lt (s : Store) (toks : List String) (hwf : WFStore s) :
    ∀ cur i, cur < s.nodes.length →
      (subRouteAux s cur i toks).1 < s.nodes.length := by
  induction toks with
  | nil => intro cur i hc; simpa [subRouteAux] using hc
  | cons name rest ih =>
    intro cur i hc
    cases h : findChild s cur name with
    | none =>
      rw [subRouteAux_cons_none s cur i name rest h]
      simpa using hc
    | some child =>
      rw [subRouteAux_cons_some s cur i child name rest h]
      refine ih child (i + 1) ?_
      have hmem : child ∈ (getNode s cur).children :=
        List.mem_of_find?_eq_some h
      have hnode : getNode s cur ∈ s.nodes := by
        rw [getNode, List.getD_eq_getElem s.nodes default hc]
        exact List.getElem_mem hc
      exact hwf (getNode s cur) hnode child hmem

theorem runAfterGate_ne_cnf (s : Store) (child : Nat) (path : String)
    (router args : List String) (e : Nat) (p sug : String) :
    runAfterGate s child path router args e ≠ .failed (.commandNotFound p) sug := by
  unfold runAfterGate runExec
  intro h
  dsimp only at h
  split at h
  · split at h <;> cases h
  · split at h
    · cases h
    · split at h
      · split at h <;> cases h
      · split at h
        · cases h
        · split at h <;> cases h

theorem runAfterGate_ne_mna (s : Store) (child : Nat) (path : String)
    (router args : List String) (e : Nat) (m sug : String) :
    runAfterGate s child path router args e ≠ .failed (.methodNotAllowed m) sug := by
  unfold runAfterGate runExec
  intro h
  dsimp only at h
  split at h
  · split at h <;> cases h
  · split at h
    · cases h
    · split at h
      · split at h <;> cases h
      · split at h
        · cases h
        · split at h <;> cases h

theorem run_cnf_cases (s : Store) (cmd : Nat) (args ms : List String)
    (clr : Bool) (p sug : String)
    (h : RunWithWriter s cmd args ms clr = .failed (.commandNotFound p) sug) :
    (routerOf args = [] ∧ (getNode s cmd).Fn = none)
    ∨ ((getNode s (SubRoute s cmd (routerOf args)).1).CanSubRoute = false
        ∧ (SubRoute s cmd (routerOf args)).2 ≠ (routerOf args).length) := by
  unfold RunWithWriter at h
  by_cases hg : ((routerOf args).isEmpty && (getNode s cmd).Fn.isNone) = true
  · left
    rw [Bool.and_eq_true, List.isEmpty_iff, Option.isNone_iff_eq_none] at hg
    exact hg
  · rw [if_neg hg] at h
    by_cases hs : (!(getNode s (SubRoute s cmd (routerOf args)).1).CanSubRoute
        && (SubRoute s cmd (routerOf args)).2 != (routerOf args).length) = true
    · right
      rw [Bool.and_eq_true, Bool.not_eq_true', bne_iff_ne] at hs
      exact hs
    · rw [if_neg hs] at h
      by_cases hm : (!methodAllowed s (SubRoute s cmd (routerOf args)).1 ms) = true
      · rw [if_pos hm] at h
        cases h
      · rw [if_neg hm] at h
        exact absurd h (runAfterGate_ne_cnf _ _ _ _ _ _ _ _)

theorem runExec_done (s : Store) (c : Ctx) (ctx : Ctx) (r : Option String)
    (h : runExec s c = .done ctx r) :
    ctx = c ∧ (getNode s c.command).Fn = some r := by
  unfold runExec at h
  cases hF : (getNode s c.command).Fn with
  | none => rw [hF] at h; cases h
  | some r0 => rw [hF] at h; cases h; exact ⟨rfl, rfl⟩

theorem runAfterGate_done (s : Store) (child : Nat) (path : String)
    (router args : List String) (e : Nat) (ctx : Ctx) (r : Option String)
    (h : runAfterGate s child path router args e = .done ctx r) :
    ctx = ⟨path, router.take e, args.drop e, child⟩
    ∧ (getNode s child).Fn = some r
    ∧ (∀ av, (getNode s child).Argv = some av →
        av.parseErr (args.drop e) = none
        ∧ (av.dontValidate (args.drop e) = false →
            ∀ m, av.validateResult ≠ some (some m))) := by
  unfold runAfterGate at h
  cases hA : (getNode s child).Argv with
  | none =>
    simp only [hA] at h
    obtain ⟨h1, h2⟩ := runExec_done s _ ctx r h
    subst h1
    exact ⟨rfl, h2, fun av hav => by cases hav⟩
  | some av =>
    simp only [hA] at h
    cases hp : av.parseErr (args.drop e) with
    | some m => simp only [hp] at h; cases h
    | none =>
      simp only [hp] at h
      by_cases hd : av.dontValidate (args.drop e) = true
      · rw [if_pos hd] at h
        obtain ⟨h1, h2⟩ := runExec_done s _ ctx r h
        subst h1
        refine ⟨rfl, h2, fun av2 hav2 => ?_⟩
        cases hav2
        exact ⟨hp, fun hd2 => by rw [hd] at hd2; cases hd2⟩
      · rw [if_neg hd] at h
        cases hv : av.validateResult with
        | none =>
          simp only [hv] at h
          obtain ⟨h1, h2⟩ := runExec_done s _ ctx r h
          subst h1
          refine ⟨rfl, h2, fun av2 hav2 => ?_⟩
          cases hav2
          exact ⟨hp, fun _ m hvm => by rw [hv] at hvm; cases hvm⟩
        | some vr =>
          cases vr with
          | none =>
            simp only [hv] at h
            obtain ⟨h1, h2⟩ := runExec_done s _ ctx r h
            subst h1
            refine ⟨rfl, h2, fun av2 hav2 => ?_⟩
            cases hav2
            refine ⟨hp, fun _ m hvm => ?_⟩
            rw [hv] at hvm
            cases hvm
          | some m => simp only [hv] at h; cases h

theorem run_guard_eq (s : Store) (cmd : Nat) (args ms : List String)
    (clr : Bool) (hr : routerOf args = []) (hf : (getNode s cmd).Fn = none) :
    RunWithWriter s cmd args ms clr =
      .failed (.commandNotFound (yellowStr clr (getNode s cmd).Name)) "" := by
  unfold RunWithWriter
  rw [if_pos]
  rw [Bool.and_eq_true, List.isEmpty_iff, Option.isNone_iff_eq_none]
  exact ⟨hr, hf⟩

theorem run_structfail_eq (s : Store) (cmd : Nat) (args ms : List String)
    (clr : Bool)
    (hc : (getNode s (SubRoute s cmd (routerOf args)).1).CanSubRoute = false)
    (he : (SubRoute s cmd (routerOf args)).2 ≠ (routerOf args).length) :
    RunWithWriter s cmd args ms clr =
      .failed
        (.commandNotFound (yellowStr clr (String.intercalate " " (routerOf args))))
        (renderSuggestion clr
          (Suggestions s cmd (String.intercalate " " (routerOf args)))) := by
  have hr : routerOf args ≠ [] := by
    intro hnil
    apply he
    rw [hnil]
    rfl
  unfold RunWithWriter
  rw [if_neg, if_pos]
  · rw [Bool.and_eq_true, Bool.not_eq_true', bne_iff_ne]
    exact ⟨hc, he⟩
  · rw [Bool.and_eq_true, List.isEmpty_iff, Option.isNone_iff_eq_none]
    rintro ⟨h1, _⟩
    exact hr h1

theorem run_done_shape (s : Store) (cmd : Nat) (args ms : List String)
    (clr : Bool) (ctx : Ctx) (r : Option String)
    (h : RunWithWriter s cmd args ms clr = .done ctx r) :
    ctx = ⟨String.intercalate " " (routerOf args),
           (routerOf args).take (SubRoute s cmd (routerOf args)).2,
           args.drop (SubRoute s cmd (routerOf args)).2,
           (SubRoute s cmd (routerOf args)).1⟩
    ∧ (getNode s ctx.command).Fn = some r
    ∧ (∀ av, (getNode s ctx.command).Argv = some av →
        av.parseErr ctx.nativeArgs = none
        ∧ (av.dontValidate ctx.nativeArgs = false →
            ∀ m, av.validateResult ≠ some (some m))) := by
  unfold RunWithWriter at h
  by_cases hg : ((routerOf args).isEmpty && (getNode s cmd).Fn.isNone) = true
  · rw [if_pos hg] at h; cases h
  · rw [if_neg hg] at h
    by_cases hs : (!(getNode s (SubRoute s cmd (routerOf args)).1).CanSubRoute
        && (SubRoute s cmd (routerOf args)).2 != (routerOf args).length) = true
    · rw [if_pos hs] at h; cases h
    · rw [if_neg hs] at h
      by_cases hm : (!methodAllowed s (SubRoute s cmd (routerOf args)).1 ms) = true
      · rw [if_pos hm] at h; cases h
      · rw [if_neg hm] at h
        obtain ⟨h1, h2, h3⟩ := runAfterGate_done s _ _ _ _ _ ctx r h
        subst h1
        exact ⟨rfl, h2, h3⟩

theorem methodAllowed_false_iff (s : Store) (child : Nat) (ms : List String) :
    methodAllowed s child ms = false ↔
      ms ≠ [] ∧ (getNode s child).HTTPMethods ≠ []
      ∧ ms.headD "" ∉ (getNode s child).HTTPMethods := by
  unfold methodAllowed
  by_cases h : (ms.isEmpty || (getNode s child).HTTPMethods.isEmpty) = true
  · rw [if_pos h]
    rw [Bool.or_eq_true, List.isEmpty_iff, List.isEmpty_iff] at h
    simp only [Bool.true_eq_false, false_iff]
    rintro ⟨h1, h2, _⟩
    rcases h with h | h
    · exact h1 h
    · exact h2 h
  · rw [if_neg h]
    rw [Bool.or_eq_true, List.isEmpty_iff, List.isEmpty_iff] at h
    push_neg at h
    constructor
    · intro hn
      refine ⟨h.1, h.2, ?_⟩
      simpa using hn
    · intro hn
      simpa using hn.2.2


theorem run_mna_iff (s : Store) (cmd : Nat) (args ms : List String)
    (clr : Bool) (m sug : String) :
    RunWithWriter s cmd args ms clr = .failed (.methodNotAllowed m) sug ↔
      ¬(routerOf args = [] ∧ (getNode s cmd).Fn = none)
      ∧ ¬((getNode s (SubRoute s cmd (routerOf args)).1).CanSubRoute = false
          ∧ (SubRoute s cmd (routerOf args)).2 ≠ (routerOf args).length)
      ∧ ms ≠ []
      ∧ (getNode s (SubRoute s cmd (routerOf args)).1).HTTPMethods ≠ []
      ∧ ms.headD "" ∉ (getNode s (SubRoute s cmd (routerOf args)).1).HTTPMethods
      ∧ m = yellowStr clr (ms.headD "") ∧ sug = "" := by
  constructor
  · intro h
    unfold RunWithWriter at h
    by_cases hg : ((routerOf args).isEmpty && (getNode s cmd).Fn.isNone) = true
    · rw [if_pos hg] at h; simp at h
    · rw [if_neg hg] at h
      by_cases hs : (!(getNode s (SubRoute s cmd (routerOf args)).1).CanSubRoute
          && (SubRoute s cmd (routerOf args)).2 != (routerOf args).length) = true
      · rw [if_pos hs] at h; simp at h
      · rw [if_neg hs] at h
        by_cases hm : (!methodAllowed s (SubRoute s cmd (routerOf args)).1 ms) = true
        · rw [if_pos hm] at h
          rw [Bool.not_eq_true'] at hm
          rw [methodAllowed_false_iff] at hm
          rw [Bool.and_eq_true, List.isEmpty_iff, Option.isNone_iff_eq_none] at hg
          rw [Bool.and_eq_true, Bool.not_eq_true', bne_iff_ne] at hs
          injection h with h1 h2
          injection h1 with h3
          exact ⟨hg, hs, hm.1, hm.2.1, hm.2.2, h3.symm, h2.symm⟩
        · rw [if_neg hm] at h
          exact absurd h (runAfterGate_ne_mna _ _ _ _ _ _ _ _)
  · rintro ⟨hg, hs, hm1, hm2, hm3, rfl, rfl⟩
    unfold RunWithWriter
    rw [if_neg, if_neg, if_pos]
    · rw [Bool.not_eq_true', methodAllowed_false_iff]
      exact ⟨hm1, hm2, hm3⟩
    · rw [Bool.and_eq_true, Bool.not_eq_true', bne_iff_ne]
      exact hs
    · rw [Bool.and_eq_true, List.isEmpty_iff, Option.isNone_iff_eq_none]
      exact hg

theorem runAfterGate_failed_sug (s : Store) (child : Nat) (path : String)
    (router args : List String) (e : Nat) (err : CliError) (sug : String)
    (h : runAfterGate s child path router args e = .failed err sug) :
    sug = "" := by
  unfold runAfterGate runExec at h
  dsimp only at h
  split at h
  · split at h <;> cases h
  · split at h
    · cases h; rfl
    · split at h
      · split at h <;> cases h
      · split at h
        · cases h; rfl
        · split at h <;> cases h

/-- Claim C10: `SubRoute` is total and returns a (non-nil) node of the tree
together with a consumed count between 0 and the token-list length: it
returns the receiver and 0 on the empty list and when the first token
matches no child; hence dispatch can report `CommandNotFound` only from the
empty-router-prefix check or from partial consumption at a node that cannot
sub-route — never from a nil routing result. -/
theorem C10_subroute_safety :
    (∀ s cmd router, (SubRoute s cmd router).2 ≤ router.length)
    ∧ (∀ s cmd, SubRoute s cmd [] = (cmd, 0))
    ∧ (∀ s cmd name rest, findChild s cmd name = none →
        SubRoute s cmd (name :: rest) = (cmd, 0))
    ∧ (∀ s cmd router, WFStore s → cmd < s.nodes.length →
        (SubRoute s cmd router).1 < s.nodes.length)
    ∧ (∀ s cmd args ms clr p sug,
        RunWithWriter s cmd args ms clr = .failed (.commandNotFound p) sug →
        (routerOf args = [] ∧ (getNode s cmd).Fn = none)
        ∨ ((getNode s (SubRoute s cmd (routerOf args)).1).CanSubRoute = false
            ∧ (SubRoute s cmd (routerOf args)).2 ≠ (routerOf args).length)) := by
  refine ⟨?_, fun s cmd => rfl,
    fun s cmd name rest h => subRouteAux_cons_none s cmd 0 name rest h, ?_, ?_⟩
  · intro s cmd router
    simpa using subRouteAux_snd_le s router cmd 0
  · intro s cmd router hwf hc
    exact subRouteAux_fst_lt s router hwf cmd 0 hc
  · intro s cmd args ms clr p sug h
    exact run_cnf_cases s cmd args ms clr p sug h

theorem C10_witness :
    WFStore exC1 ∧ 0 < exC1.nodes.length
    ∧ (SubRoute exC1 0 ["a", "x", "y"]).1 < exC1.nodes.length
    ∧ findChild exC1 0 "zz" = none
    ∧ SubRoute exC1 0 ["zz", "a"] = (0, 0) :=
  ⟨by decide, by decide,
   C10_subroute_safety.2.2.2.1 exC1 0 ["a", "x", "y"] (by decide) (by decide),
   by decide,
   C10_subroute_safety.2.2.1 exC1 0 "zz" ["a"] (by decide)⟩

/-- Claim C2 counterexample: on a childless, handlerless root dispatched
with no arguments, the driver reports `CommandNotFound` — carrying the
root's name rather than the space-joined (empty) router prefix, and with no
suggestion text attached — even though a node was found (`SubRoute` returned
the receiver) and it consumed every router-prefix token, so the claim's
failure condition is false while the failure occurs. -/
theorem C2_counterexample :
    RunWithWriter lonely 0 [] [] false = .failed (.commandNotFound "root") ""
    ∧ (SubRoute lonely 0 (routerOf [])).2 = (routerOf ([] : List String)).length
    ∧ "root" ≠ String.intercalate " " (routerOf ([] : List String)) := by
  decide

/-- Claim C2 (amended): dispatch reports `CommandNotFound` iff the router
prefix is empty and the root has no handler (in which case the error carries
the root's name and no suggestions are computed), or the node found did not
consume every router-prefix token and cannot sub-route (in which case ranked
suggestions against the space-joined router prefix are rendered and attached
to the error); a nil routing result never occurs. -/
theorem C2_notfound_policy :
    (∀ s cmd args ms clr,
      (∃ p sug, RunWithWriter s cmd args ms clr = .failed (.commandNotFound p) sug)
      ↔ ((routerOf args = [] ∧ (getNode s cmd).Fn = none)
         ∨ ((getNode s (SubRoute s cmd (routerOf args)).1).CanSubRoute = false
            ∧ (SubRoute s cmd (routerOf args)).2 ≠ (routerOf args).length)))
    ∧ (∀ s cmd args ms clr,
        (getNode s (SubRoute s cmd (routerOf args)).1).CanSubRoute = false →
        (SubRoute s cmd (routerOf args)).2 ≠ (routerOf args).length →
        RunWithWriter s cmd args ms clr =
          .failed
            (.commandNotFound (yellowStr clr (String.intercalate " " (routerOf args))))
            (renderSuggestion clr
              (Suggestions s cmd (String.intercalate " " (routerOf args)))))
    ∧ (∀ s cmd args ms clr, routerOf args = [] → (getNode s cmd).Fn = none →
        RunWithWriter s cmd args ms clr =
          .failed (.commandNotFound (yellowStr clr (getNode s cmd).Name)) "") := by
  refine ⟨?_, fun s cmd args ms clr hc he => run_structfail_eq s cmd args ms clr hc he,
    fun s cmd args ms clr hr hf => run_guard_eq s cmd args ms clr hr hf⟩
  intro s cmd args ms clr
  constructor
  · rintro ⟨p, sug, h⟩
    exact run_cnf_cases s cmd args ms clr p sug h
  · rintro (⟨hr, hf⟩ | ⟨hc, he⟩)
    · exact ⟨_, _, run_guard_eq s cmd args ms clr hr hf⟩
    · exact ⟨_, _, run_structfail_eq s cmd args ms clr hc he⟩

theorem C2_witness :
    RunWithWriter hw 0 ["hello", "nope"] [] false =
      .failed
        (.commandNotFound
          (yellowStr false (String.intercalate " " (routerOf ["hello", "nope"]))))
        (renderSuggestion false
          (Suggestions hw 0 (String.intercalate " " (routerOf ["hello", "nope"])))) :=
  C2_notfound_policy.2.1 hw 0 ["hello", "nope"] [] false (by decide) (by decide)

/-- Claim C7: after a structural match, dispatch fails with
`MethodNotAllowed` exactly when the caller supplied a method token, the
matched node declares a non-empty allowed-method set, and the supplied
method is not a member; the check never fires on structural failure, and is
skipped when no method is supplied or the node's set is empty. -/
theorem C7_method_gate :
    ∀ s cmd args ms clr m sug,
      RunWithWriter s cmd args ms clr = .failed (.methodNotAllowed m) sug ↔
        ¬(routerOf args = [] ∧ (getNode s cmd).Fn = none)
        ∧ ¬((getNode s (SubRoute s cmd (routerOf args)).1).CanSubRoute = false
            ∧ (SubRoute s cmd (routerOf args)).2 ≠ (routerOf args).length)
        ∧ ms ≠ []
        ∧ (getNode s (SubRoute s cmd (routerOf args)).1).HTTPMethods ≠ []
        ∧ ms.headD "" ∉ (getNode s (SubRoute s cmd (routerOf args)).1).HTTPMethods
        ∧ m = yellowStr clr (ms.headD "") ∧ sug = "" :=
  fun s cmd args ms clr m sug => run_mna_iff s cmd args ms clr m sug

theorem C7_witness :
    RunWithWriter mg 0 ["a"] ["PUT"] false = .failed (.methodNotAllowed "PUT") "" :=
  (C7_method_gate mg 0 ["a"] ["PUT"] false "PUT" "").mpr
    ⟨by decide, by decide, by decide, by decide, by decide, by decide, rfl⟩

theorem drop_length_takeWhile (p : String → Bool) :
    ∀ l : List String, l.drop (l.takeWhile p).length = l.dropWhile p := by
  intro l
  induction l with
  | nil => rfl
  | cons a as ih =>
    by_cases hp : p a = true
    · rw [List.takeWhile_cons_of_pos hp, List.dropWhile_cons_of_pos hp]
      simpa using ih
    · rw [List.takeWhile_cons_of_neg hp, List.dropWhile_cons_of_neg hp]
      rfl

theorem dropWhile_headD_false (p : String → Bool) (l : List String)
    (h : l.dropWhile p ≠ []) : p ((l.dropWhile p).headD "") = false := by
  induction l with
  | nil => simp at h
  | cons a as ih =>
    by_cases hp : p a = true
    · rw [List.dropWhile_cons_of_pos hp] at h ⊢
      exact ih h
    · rw [List.dropWhile_cons_of_neg hp] at h ⊢
      simpa using hp

/-- Claim C3 counterexample: dispatching `["a","b","-x"]` against a tree
whose child `a` can sub-route hands the argument parser `["b","-x"]` —
everything after the consumed tokens — not `["-x"]`, the tokens from the
first flag onward (the parser's error message echoes its input). -/
theorem C3_counterexample :
    RunWithWriter c3s 0 ["a", "b", "-x"] [] false = .failed (.parseFail "b,-x") ""
    ∧ String.intercalate ","
        (["a", "b", "-x"].dropWhile (fun a => !hasPfx dashOne a)) = "-x"
    ∧ "b,-x" ≠ "-x" := by decide

/-- Claim C3 (amended): the router prefix is exactly the tokens before the
first token beginning with a dash; the residual handed to the argument
parser is everything after the tokens consumed by routing — which equals
everything from the first flag token onward exactly when routing consumed
the whole router prefix; and an empty router prefix with a handlerless root
fails immediately with `CommandNotFound`. -/
theorem C3_split_residual :
    (∀ (args : List String) t, t ∈ routerOf args → hasPfx dashOne t = false)
    ∧ (∀ args : List String,
        routerOf args ++ args.drop (routerOf args).length = args)
    ∧ (∀ args : List String, args.drop (routerOf args).length =
        args.dropWhile (fun a => !hasPfx dashOne a))
    ∧ (∀ args : List String, args.drop (routerOf args).length ≠ [] →
        hasPfx dashOne ((args.drop (routerOf args).length).headD "") = true)
    ∧ (∀ s cmd args ms clr, routerOf args = [] → (getNode s cmd).Fn = none →
        RunWithWriter s cmd args ms clr =
          .failed (.commandNotFound (yellowStr clr (getNode s cmd).Name)) "")
    ∧ (∀ s cmd args ms clr ctx r,
        RunWithWriter s cmd args ms clr = .done ctx r →
        ctx.nativeArgs = args.drop (SubRoute s cmd (routerOf args)).2
        ∧ ((SubRoute s cmd (routerOf args)).2 = (routerOf args).length →
            ctx.nativeArgs = args.dropWhile (fun a => !hasPfx dashOne a))) := by
  have hdw : ∀ args : List String, args.drop (routerOf args).length =
      args.dropWhile (fun a => !hasPfx dashOne a) :=
    fun args => drop_length_takeWhile (fun a => !hasPfx dashOne a) args
  refine ⟨?_, ?_, hdw, ?_, ?_, ?_⟩
  · intro args t ht
    have := List.mem_takeWhile_imp ht
    rwa [Bool.not_eq_true'] at this
  · intro args
    rw [hdw args]
    unfold routerOf
    exact List.takeWhile_append_dropWhile _ _
  · intro args h
    rw [hdw args] at h ⊢
    have := dropWhile_headD_false (fun a => !hasPfx dashOne a) args h
    simpa using this
  · intro s cmd args ms clr hr hf
    exact run_guard_eq s cmd args ms clr hr hf
  · intro s cmd args ms clr ctx r h
    obtain ⟨h1, _, _⟩ := run_done_shape s cmd args ms clr ctx r h
    subst h1
    refine ⟨rfl, fun he => ?_⟩
    dsimp only
    rw [he, hdw args]

theorem C3_witness :
    (⟨"hello world", ["hello", "world"], ["-a", "--xyz=1"], 2⟩ : Ctx).nativeArgs =
      ["hello", "world", "-a", "--xyz=1"].drop
        (SubRoute hw 0 (routerOf ["hello", "world", "-a", "--xyz=1"])).2 :=
  (C3_split_residual.2.2.2.2.2 hw 0 ["hello", "world", "-a", "--xyz=1"] [] false
    ⟨"hello world", ["hello", "world"], ["-a", "--xyz=1"], 2⟩ none (by decide)).1

/-- Claim C4 counterexample: with a sub-routable child `a`, dispatching
`["a","b","-x"]` yields a context whose `Path()` is "a b" — the join of the
whole router prefix — while the tokens consumed by routing are just
`["a"]`, whose join is "a". -/
theorem C4_counterexample :
    RunWithWriter c4s 0 ["a", "b", "-x"] [] false =
      .done ⟨"a b", ["a"], ["b", "-x"], 1⟩ none
    ∧ "a b" ≠ String.intercalate " " ["a"] := by decide

/-- Claim C4 (amended): on a successful dispatch the context's `Router()` is
exactly the tokens consumed by routing and `Args()` exactly the tokens not
consumed; `Path()` is the space-join of the whole router prefix, which
equals the join of the consumed tokens exactly when routing consumed the
whole prefix (as in the `hello world` example). -/
theorem C4_context_fields :
    (∀ s cmd args ms clr ctx r,
        RunWithWriter s cmd args ms clr = .done ctx r →
        ctx.command = (SubRoute s cmd (routerOf args)).1
        ∧ ctx.router = (routerOf args).take (SubRoute s cmd (routerOf args)).2
        ∧ ctx.nativeArgs = args.drop (SubRoute s cmd (routerOf args)).2
        ∧ ctx.path = String.intercalate " " (routerOf args)
        ∧ ((SubRoute s cmd (routerOf args)).2 = (routerOf args).length →
            ctx.path = String.intercalate " " ctx.router))
    ∧ RunWithWriter hw 0 ["hello", "world", "-a", "--xyz=1"] [] false =
        .done ⟨"hello world", ["hello", "world"], ["-a", "--xyz=1"], 2⟩ none := by
  constructor
  · intro s cmd args ms clr ctx r h
    obtain ⟨h1, _, _⟩ := run_done_shape s cmd args ms clr ctx r h
    subst h1
    refine ⟨rfl, rfl, rfl, rfl, fun he => ?_⟩
    dsimp only
    rw [he, List.take_length]
  · decide

theorem C4_witness :
    (⟨"hello world", ["hello", "world"], ["-a", "--xyz=1"], 2⟩ : Ctx).path =
      String.intercalate " " (routerOf ["hello", "world", "-a", "--xyz=1"]) :=
  (C4_context_fields.1 hw 0 ["hello", "world", "-a", "--xyz=1"] [] false
    ⟨"hello world", ["hello", "world"], ["-a", "--xyz=1"], 2⟩ none
    (by decide)).2.2.2.1

/-- Claim C9: when routing, method gating, argument parsing and validation
all succeed, the matched node's handler is invoked exactly once (`done` is
produced only by the single `Fn` call site) and its return value is
surfaced unmodified, with no suggestion text attached (non-empty suggestion
text accompanies only `CommandNotFound`); every pre-handler error is
returned as `failed` before any handler runs. -/
theorem C9_handler_passthrough :
    (∀ s cmd args ms clr ctx r,
        RunWithWriter s cmd args ms clr = .done ctx r →
        (getNode s ctx.command).Fn = some r)
    ∧ (∀ s cmd args ms clr ctx r,
        RunWithWriter s cmd args ms clr = .done ctx r →
        ∀ av, (getNode s ctx.command).Argv = some av →
          av.parseErr ctx.nativeArgs = none
          ∧ (av.dontValidate ctx.nativeArgs = false →
              ∀ m, av.validateResult ≠ some (some m)))
    ∧ (∀ s cmd args ms clr e sug,
        RunWithWriter s cmd args ms clr = .failed e sug →
        sug ≠ "" → ∃ p, e = .commandNotFound p)
    ∧ RunWithWriter mg 0 ["a"] ["GET"] false =
        .done ⟨"a", ["a"], [], 1⟩ (some "boom") := by
  refine ⟨?_, ?_, ?_, by decide⟩
  · intro s cmd args ms clr ctx r h
    exact (run_done_shape s cmd args ms clr ctx r h).2.1
  · intro s cmd args ms clr ctx r h
    exact (run_done_shape s cmd args ms clr ctx r h).2.2
  · intro s cmd args ms clr e sug h hs
    unfold RunWithWriter at h
    by_cases hg : ((routerOf args).isEmpty && (getNode s cmd).Fn.isNone) = true
    · rw [if_pos hg] at h
      injection h with h1 h2
      exact absurd h2.symm hs
    · rw [if_neg hg] at h
      by_cases hst : (!(getNode s (SubRoute s cmd (routerOf args)).1).CanSubRoute
          && (SubRoute s cmd (routerOf args)).2 != (routerOf args).length) = true
      · rw [if_pos hst] at h
        injection h with h1 h2
        exact ⟨_, h1.symm⟩
      · rw [if_neg hst] at h
        by_cases hm : (!methodAllowed s (SubRoute s cmd (routerOf args)).1 ms) = true
        · rw [if_pos hm] at h
          injection h with h1 h2
          exact absurd h2.symm hs
        · rw [if_neg hm] at h
          exact absurd (runAfterGate_failed_sug s _ _ _ _ _ e sug h) hs

theorem C9_witness :
    (getNode mg (⟨"a", ["a"], [], 1⟩ : Ctx).command).Fn = some (some "boom") :=
  C9_handler_passthrough.1 mg 0 ["a"] ["GET"] false ⟨"a", ["a"], [], 1⟩
    (some "boom") (by decide)

theorem getNode_setNode_self (s : Store) (i : Nat) (n : Node)
    (h : i < s.nodes.length) : getNode (setNode s i n) i = n := by
  unfold getNode setNode
  rw [List.getD_eq_getElem?_getD, List.getElem?_set_self h]
  rfl

theorem getNode_setNode_ne (s : Store) (i j : Nat) (n : Node) (h : i ≠ j) :
    getNode (setNode s i n) j = getNode s j := by
  unfold getNode setNode
  rw [List.getD_eq_getElem?_getD, List.getElem?_set_ne h,
    ← List.getD_eq_getElem?_getD]

theorem setNode_length (s : Store) (i : Nat) (n : Node) :
    (setNode s i n).nodes.length = s.nodes.length := by
  unfold setNode
  exact List.length_set s.nodes i n

/-- Claim C6: `Register` fails fatally (a configuration error) exactly when
the child is nil, the child's name is empty, the child already has a
parent, or the parent already has a child of that name; otherwise it
appends the child after all existing children, sets the child's parent
pointer, and returns the child. -/
theorem C6_register :
    (∀ s cmd ch?,
      regResFatal (Register s cmd ch?) = true ↔
        ch? = none
        ∨ ∃ ch, ch? = some ch
            ∧ ((getNode s ch).Name = ""
               ∨ (getNode s ch).parent.isSome = true
               ∨ (findChild s cmd (getNode s ch).Name).isSome = true))
    ∧ (∀ s cmd ch, (getNode s ch).Name ≠ "" →
        (getNode s ch).parent = none →
        findChild s cmd (getNode s ch).Name = none →
        cmd < s.nodes.length → ch < s.nodes.length →
        regResChild (Register s cmd (some ch)) = some ch
        ∧ ∃ s', regResStore (Register s cmd (some ch)) = some s'
            ∧ (getNode s' cmd).children = (getNode s cmd).children ++ [ch]
            ∧ (getNode s' ch).parent = some cmd
            ∧ s'.nodes.length = s.nodes.length
            ∧ ∀ j, j ≠ cmd → j ≠ ch → getNode s' j = getNode s j) := by
  constructor
  · intro s cmd ch?
    cases ch? with
    | none => simp [Register, regResFatal]
    | some ch =>
      unfold Register
      dsimp only
      by_cases h1 : (getNode s ch).Name = ""
      · rw [if_pos h1]
        simp [regResFatal, h1]
      · rw [if_neg h1]
        by_cases h2 : (getNode s ch).parent.isSome = true
        · rw [if_pos h2]
          simp [regResFatal, h2]
        · rw [if_neg h2]
          by_cases h3 : (findChild s cmd (getNode s ch).Name).isSome = true
          · rw [if_pos h3]
            simp [regResFatal, h3]
          · rw [if_neg h3]
            simp [regResFatal, h1, h2, h3]
  · intro s cmd ch h1 h2 h3 hcm hch
    have h2s : (getNode s ch).parent.isSome = false := by rw [h2]; rfl
    have h3s : (findChild s cmd (getNode s ch).Name).isSome = false := by
      rw [h3]; rfl
    unfold Register
    dsimp only
    rw [if_neg h1, if_neg (by rw [h2s]; exact Bool.false_ne_true),
      if_neg (by rw [h3s]; exact Bool.false_ne_true)]
    have hcm1 : cmd < (setNode s cmd
        {getNode s cmd with children := (getNode s cmd).children ++ [ch]}).nodes.length := by
      rw [setNode_length]; exact hcm
    have hch1 : ch < (setNode s cmd
        {getNode s cmd with children := (getNode s cmd).children ++ [ch]}).nodes.length := by
      rw [setNode_length]; exact hch
    refine ⟨rfl, _, rfl, ?_, ?_, ?_, ?_⟩
    · by_cases hcc : ch = cmd
      · subst hcc
        rw [getNode_setNode_self _ _ _ hch1]
        show (getNode (setNode s ch
          {getNode s ch with children := (getNode s ch).children ++ [ch]}) ch).children = _
        rw [getNode_setNode_self _ _ _ hcm]
      · rw [getNode_setNode_ne _ _ _ _ hcc,
          getNode_setNode_self _ _ _ hcm]
    · rw [getNode_setNode_self _ _ _ hch1]
    · rw [setNode_length, setNode_length]
    · intro j hj1 hj2
      rw [getNode_setNode_ne _ _ _ _ (Ne.symm hj2),
        getNode_setNode_ne _ _ _ _ (Ne.symm hj1)]

theorem C6_witness :
    regResChild (Register regS 0 (some 1)) = some 1
    ∧ ∃ s', regResStore (Register regS 0 (some 1)) = some s'
        ∧ (getNode s' 0).children = (getNode regS 0).children ++ [1]
        ∧ (getNode s' 1).parent = some 0
        ∧ s'.nodes.length = regS.nodes.length
        ∧ ∀ j, j ≠ 0 → j ≠ 1 → getNode s' j = getNode regS j :=
  C6_register.2 regS 0 1 (by decide) (by decide) (by decide) (by decide) (by decide)

theorem getNode_usageSet_proj (s : Store) (i : Nat) (u : String) (j : Nat) :
    (getNode (setNode s i {getNode s i with usage := u}) j).Name = (getNode s j).Name
    ∧ (getNode (setNode s i {getNode s i with usage := u}) j).Desc = (getNode s j).Desc
    ∧ (getNode (setNode s i {getNode s i with usage := u}) j).Text = (getNode s j).Text
    ∧ (getNode (setNode s i {getNode s i with usage := u}) j).Argv = (getNode s j).Argv
    ∧ (getNode (setNode s i {getNode s i with usage := u}) j).children
        = (getNode s j).children := by
  by_cases hij : i = j
  · subst hij
    by_cases hi : i < s.nodes.length
    · rw [getNode_setNode_self s i _ hi]
      exact ⟨rfl, rfl, rfl, rfl, rfl⟩
    · have hs : setNode s i {getNode s i with usage := u} = s := by
        unfold setNode
        rw [List.set_eq_of_length_le (Nat.le_of_not_lt hi)]
      rw [hs]
      exact ⟨rfl, rfl, rfl, rfl, rfl⟩
  · rw [getNode_setNode_ne s i j _ hij]
    exact ⟨rfl, rfl, rfl, rfl, rfl⟩

theorem ListChildren_usageSet (s : Store) (i : Nat) (u : String) (cmd : Nat)
    (pre ind : String) :
    ListChildren (setNode s i {getNode s i with usage := u}) cmd pre ind =
      ListChildren s cmd pre ind := by
  have hName : ∀ c, (getNode (setNode s i {getNode s i with usage := u}) c).Name
      = (getNode s c).Name := fun c => (getNode_usageSet_proj s i u c).1
  have hDesc : ∀ c, (getNode (setNode s i {getNode s i with usage := u}) c).Desc
      = (getNode s c).Desc := fun c => (getNode_usageSet_proj s i u c).2.1
  have hch : (getNode (setNode s i {getNode s i with usage := u}) cmd).children
      = (getNode s cmd).children := (getNode_usageSet_proj s i u cmd).2.2.2.2
  unfold ListChildren nochild
  simp only [hch, hName, hDesc]

theorem UsageBuild_usageSet (s : Store) (i : Nat) (u : String) (cmd : Nat)
    (clr : Bool) :
    UsageBuild (setNode s i {getNode s i with usage := u}) cmd clr =
      UsageBuild s cmd clr := by
  obtain ⟨hN, hD, hT, hA, hC⟩ := getNode_usageSet_proj s i u cmd
  unfold UsageBuild
  dsimp only
  rw [hD, hT, hA, hC, ListChildren_usageSet]

theorem Usage_memo (s : Store) (cmd : Nat) (c1 c2 : Option Bool)
    (hlen : cmd < s.nodes.length) (h : (Usage s cmd c1).text ≠ "") :
    (Usage (Usage s cmd c1).store cmd c2).text = (Usage s cmd c1).text
    ∧ (Usage (Usage s cmd c1).store cmd c2).built = false := by
  unfold Usage at h ⊢
  by_cases hc : (getNode s cmd).usage ≠ ""
  · rw [if_pos hc] at h ⊢
    dsimp only
    rw [if_pos hc]
    exact ⟨rfl, rfl⟩
  · rw [if_neg hc] at h ⊢
    dsimp only at h ⊢
    have hcache : (getNode (setNode s cmd
        {getNode s cmd with usage := UsageBuild s cmd (c1.getD false)}) cmd).usage
        = UsageBuild s cmd (c1.getD false) := by
      rw [getNode_setNode_self s cmd _ hlen]
    rw [if_pos (by rw [hcache]; exact h)]
    exact ⟨hcache, rfl⟩

theorem Usage_idem_same_clr (s : Store) (cmd : Nat) (c : Option Bool)
    (hlen : cmd < s.nodes.length) :
    (Usage (Usage s cmd c).store cmd c).text = (Usage s cmd c).text := by
  by_cases h : (Usage s cmd c).text ≠ ""
  · exact (Usage_memo s cmd c c hlen h).1
  · push_neg at h
    unfold Usage at h ⊢
    by_cases hc : (getNode s cmd).usage ≠ ""
    · rw [if_pos hc] at h ⊢
      dsimp only
      rw [if_pos hc]
    · rw [if_neg hc] at h ⊢
      dsimp only at h ⊢
      have hcache : (getNode (setNode s cmd
          {getNode s cmd with usage := UsageBuild s cmd (c.getD false)}) cmd).usage
          = UsageBuild s cmd (c.getD false) := by
        rw [getNode_setNode_self s cmd _ hlen]
      rw [if_neg (by rw [hcache, h]; exact fun hne => hne rfl)]
      dsimp only
      rw [UsageBuild_usageSet, h]

/-- Claim C8 counterexample: on a node with no description, detailed text,
argument factory or children, the usage text is empty, the empty string is
never treated as a populated cache, and so the second call performs
construction work again (`built = true`) instead of returning a cached
string directly — though the output is still byte-identical. -/
theorem C8_counterexample :
    (Usage emptyN 0 none).built = true
    ∧ (Usage (Usage emptyN 0 none).store 0 none).built = true
    ∧ (Usage (Usage emptyN 0 none).store 0 none).text = (Usage emptyN 0 none).text := by
  constructor
  · rfl
  · constructor
    · rfl
    · rfl

/-- Claim C8 (amended): whenever the first call produced non-empty text —
the case for every node with a description, detailed text, argument factory
or children — a second `Usage` call returns the cached string directly,
byte-identical and with no construction work, regardless of the second
caller's color mode, so the styling of the first caller is frozen into the
cache (the styled first text differs from an unstyled rebuild); a node whose
usage text is empty rebuilds on every call but still returns identical
output for an identical color mode. -/
theorem C8_usage_memoized :
    (∀ s cmd c1 c2, cmd < s.nodes.length → (Usage s cmd c1).text ≠ "" →
        (Usage (Usage s cmd c1).store cmd c2).text = (Usage s cmd c1).text
        ∧ (Usage (Usage s cmd c1).store cmd c2).built = false)
    ∧ (∀ s cmd c, cmd < s.nodes.length →
        (Usage (Usage s cmd c).store cmd c).text = (Usage s cmd c).text)
    ∧ (Usage (Usage un 0 (some true)).store 0 (some false)).text
        = (Usage un 0 (some true)).text
    ∧ (Usage un 0 (some true)).text ≠ UsageBuild un 0 false := by
  refine ⟨fun s cmd c1 c2 hlen h => Usage_memo s cmd c1 c2 hlen h,
    fun s cmd c hlen => Usage_idem_same_clr s cmd c hlen, ?_, by decide⟩
  exact (Usage_memo un 0 (some true) (some false) (by decide) (by decide)).1

theorem C8_witness :
    (Usage (Usage un 0 (some true)).store 0 (some false)).built = false :=
  (C8_usage_memoized.1 un 0 (some true) (some false) (by decide) (by decide)).2

theorem matchDist_some_iff (t x : String) (d : Nat) :
    matchDist t x = some d ↔
      d = editDistance t x ∧ 2 * editDistance t x < t.length + x.length := by
  unfold matchDist
  dsimp only
  by_cases h : 2 * editDistance t x < t.length + x.length
  · rw [if_pos h]
    constructor
    · intro he
      injection he with he
      exact ⟨he.symm, h⟩
    · rintro ⟨rfl, _⟩
      rfl
  · rw [if_neg h]
    constructor
    · rintro ⟨⟩
    · rintro ⟨_, hc⟩
      exact absurd hc h

theorem suggestions_mem_snd (s : Store) (cmd : Nat) (t : String)
    (pr : String × Nat)
    (hpr : pr ∈ (suggCollect s (s.nodes.length + 1) [Root s cmd] []).filterMap
      (fun x => (matchDist t x).map (fun d => (x, d)))) :
    pr.2 = editDistance t pr.1 ∧ pr.1 ∈ suggCollect s (s.nodes.length + 1) [Root s cmd] []
    ∧ 2 * editDistance t pr.1 < t.length + pr.1.length := by
  rw [List.mem_filterMap] at hpr
  obtain ⟨a, ha, hfa⟩ := hpr
  cases hmd : matchDist t a with
  | none => rw [hmd] at hfa; cases hfa
  | some d =>
    rw [hmd] at hfa
    injection hfa with hfa
    obtain ⟨hd, hacc⟩ := (matchDist_some_iff t a d).mp hmd
    subst hfa
    exact ⟨hd, ha, hacc⟩

/-- Claim C5 counterexample: the classic insertion/deletion/substitution
edit distance between "stauts" and "status" is 2, not 1; and the tie order
of the code's ranker follows the worklist's depth-first discovery, not
breadth-first discovery: on the tree with paths a, a b, a b c, d, d e, the
target "a b" ties "a b c" and "d e" at distance 2, and the code ranks
"a b c" (discovered depth-first before "d e") ahead, while the claim's
breadth-first tie-break would rank "d e" ahead. -/
theorem C5_counterexample :
    editDistance "stauts" "status" = 2
    ∧ editDistance "stauts" "status" ≠ 1
    ∧ editDistance "a b" "a b c" = 2
    ∧ editDistance "a b" "d e" = 2
    ∧ suggCollect cs5 7 [0] [] = ["a", "d", "a b", "a b c", "d e"]
    ∧ suggCollectBF cs5 7 [0] [] = ["a", "d", "a b", "d e", "a b c"]
    ∧ Suggestions cs5 0 "a b" = ["a b", "a b c", "d e"]
    ∧ SuggestionsBF cs5 0 "a b" = ["a b", "d e", "a b c"]
    ∧ Suggestions cs5 0 "a b" ≠ SuggestionsBF cs5 0 "a b" := by
  refine ⟨rfl, by decide, rfl, rfl, rfl, rfl, rfl, rfl, by decide⟩

/-- Claim C5 (amended): the suggestion set is computed over the
fully-qualified path of every node of the tree, keeping only candidates
accepted by the length-relative edit-distance cutoff; the result is sorted
ascending by distance with ties kept in the worklist's depth-first preorder
discovery order (root's direct children first); the ranking is a pure
function of the tree and target; and for target "stauts" the known path
"status" is accepted at distance 2 and ranked above the distance-4
candidate "stxxxx". -/
theorem C5_suggestions :
    (∀ s cmd t, List.Pairwise
        (fun a b => editDistance t a ≤ editDistance t b) (Suggestions s cmd t))
    ∧ (∀ s cmd t x, x ∈ Suggestions s cmd t ↔
        (x ∈ suggCollect s (s.nodes.length + 1) [Root s cmd] []
         ∧ 2 * editDistance t x < t.length + x.length))
    ∧ Suggestions st5 0 "stauts" = ["status", "stxxxx"]
    ∧ editDistance "stauts" "status" = 2
    ∧ editDistance "stauts" "stxxxx" = 4 := by
  refine ⟨?_, ?_, rfl, rfl, rfl⟩
  · intro s cmd t
    unfold Suggestions
    dsimp only
    rw [List.pairwise_map]
    have hsorted := List.sorted_insertionSort (fun x y : String × Nat => x.2 ≤ y.2)
      ((suggCollect s (s.nodes.length + 1) [Root s cmd] []).filterMap
        (fun x => (matchDist t x).map (fun d => (x, d))))
    refine hsorted.imp_of_mem ?_
    intro a b ha hb hr
    have hperm := List.perm_insertionSort (fun x y : String × Nat => x.2 ≤ y.2)
      ((suggCollect s (s.nodes.length + 1) [Root s cmd] []).filterMap
        (fun x => (matchDist t x).map (fun d => (x, d))))
    have hda := (suggestions_mem_snd s cmd t a (hperm.subset ha)).1
    have hdb := (suggestions_mem_snd s cmd t b (hperm.subset hb)).1
    rw [← hda, ← hdb]
    exact hr
  · intro s cmd t x
    unfold Suggestions
    dsimp only
    have hperm := List.perm_insertionSort (fun x y : String × Nat => x.2 ≤ y.2)
      ((suggCollect s (s.nodes.length + 1) [Root s cmd] []).filterMap
        (fun x => (matchDist t x).map (fun d => (x, d))))
    constructor
    · intro hx
      rw [List.mem_map] at hx
      obtain ⟨pr, hpr, rfl⟩ := hx
      have := suggestions_mem_snd s cmd t pr (hperm.subset hpr)
      exact ⟨this.2.1, this.2.2⟩
    · rintro ⟨hmem, hacc⟩
      have hmd : matchDist t x = some (editDistance t x) :=
        (matchDist_some_iff t x (editDistance t x)).mpr ⟨rfl, hacc⟩
      have hin : (x, editDistance t x) ∈
          (suggCollect s (s.nodes.length + 1) [Root s cmd] []).filterMap
            (fun y => (matchDist t y).map (fun d => (y, d))) :=
        List.mem_filterMap.mpr ⟨x, hmem, by rw [hmd]; rfl⟩
      exact List.mem_map.mpr ⟨(x, editDistance t x), hperm.symm.subset hin, rfl⟩

theorem C5_witness :
    "status" ∈ Suggestions st5 0 "stauts" :=
  (C5_suggestions.2.1 st5 0 "stauts" "status").mpr ⟨by decide, by decide⟩

end CoffeeCli
